import Mathlib

/-!
Shallow embedding of the ETL pipeline (web-scraping extraction, pandas-style
cleaning, multi-destination load) from the repository
membangun_etl_pipeline_sederhana, together with theorems checking the
natural-language specification against the code.

Source files embedded:
- utils/extract.py : RegexTextExtractor.extract_text, FashionDataExtractor.extract
- utils/transform.py : the five field cleaners and FashionDataTransformer.transform
- utils/load.py : the three destination loaders and MultiDestinationDataLoader
- utils/config.py : TRANSFORMATION_CONFIG constants

External libraries (requests, BeautifulSoup, re, pandas, the database and
spreadsheet clients) are black boxes behind narrow interfaces; they are
modelled by explicit function parameters (regex search as a capture
function, fetch as a page-indexed Option, destination writes as
Except-valued effects) or by small executable models of the exact library
behaviour the code relies on (string containment, float parsing on decimal
literals, the two concrete regexes in transform.py, timestamp parsing of
the canonical YYYY-MM-DD HH:MM:SS shape).
-/

namespace ETL

/-! ### String helpers (models of Python primitives) -/

/-- Model of Python list/str containment at char-list level:
`chPre kw s` is true when `kw` is a leading segment of `s`. -/
def chPre : List Char → List Char → Bool
  | [], _ => true
  | _ :: _, [] => false
  | a :: as, b :: bs => a = b && chPre as bs

/-- Model of Python substring test at char-list level: contiguous occurrence. -/
def chSub (kw : List Char) : List Char → Bool
  | [] => decide (kw = [])
  | c :: rest => chPre kw (c :: rest) || chSub kw rest

/-- Model of the Python expression `kw in s` on strings (substring containment). -/
def subIn (kw s : String) : Bool :=
  chSub kw.data s.data

/-- Strip leading and trailing whitespace from a char list. -/
def trimChars (cs : List Char) : List Char :=
  ((cs.dropWhile Char.isWhitespace).reverse.dropWhile Char.isWhitespace).reverse

/-- Model of Python `str.strip()`: remove leading and trailing whitespace. -/
def pyStrip (s : String) : String :=
  String.mk (trimChars s.data)

/-! ### RegexTextExtractor (utils/extract.py lines 39-49) -/

/-- A BeautifulSoup text fragment as seen by `extract_text`.
`string` models the element's `.string` attribute: the direct string
content, absent (`none`) when the element holds nested markup.
`text` models the `.text` attribute (full rendered text); the code under
embedding never reads it, it is present to express claim C10. -/
structure Element where
  string : Option String
  text : String
deriving DecidableEq, Repr

/-- Embedding of `RegexTextExtractor.extract_text` (utils/extract.py 42-49):

    for element in elements:
        if element.string and keyword in element.string:
            match = re.search(pattern, element.string)
            if match:
                return match.group(1).strip()
    return default

`re.search` plus `match.group(1)` is an external library call; it is
passed in as `pattern : String -> Option String`, returning the first
match's first capture group. Python truthiness of `element.string` is
`none` or the empty string being falsy. -/
def extract_text (elements : List Element) (keyword : String)
    (pattern : String → Option String) (default : String := "N/A") : String :=
  match elements with
  | [] => default
  | e :: rest =>
    match e.string with
    | some s =>
      if s ≠ "" ∧ subIn keyword s then
        match pattern s with
        | some g => pyStrip g
        | none => extract_text rest keyword pattern default
      else extract_text rest keyword pattern default
    | none => extract_text rest keyword pattern default

/-! ### Executable rationals -/

/-- Executable rationals in lowest terms, the model of Python float values
for this pipeline. Every float the code computes (prices scaled by an
integer exchange rate and rounded to one decimal, ratings with one
fractional digit) is exactly representable, so exact rational arithmetic
is a faithful model of the float arithmetic the code performs. All
operations normalize, so derived structural equality is rational
equality on every value the model builds. -/
structure Q where
  n : Int
  d : Nat
deriving DecidableEq, Repr

/-- Normalized fraction: divide out the gcd. -/
def Q.normalize (n : Int) (d : Nat) : Q :=
  let g := Nat.gcd n.natAbs d
  if g = 0 then ⟨0, 1⟩ else ⟨n / (g : Int), d / g⟩

/-- Embed an integer. -/
def Q.ofInt (n : Int) : Q := ⟨n, 1⟩

/-- Embed a natural number. -/
def Q.ofNat (m : Nat) : Q := ⟨(m : Int), 1⟩

instance (m : Nat) : OfNat Q m := ⟨Q.ofNat m⟩

instance : Add Q :=
  ⟨fun a b => Q.normalize (a.n * (b.d : Int) + b.n * (a.d : Int)) (a.d * b.d)⟩

instance : Mul Q :=
  ⟨fun a b => Q.normalize (a.n * b.n) (a.d * b.d)⟩

instance : Neg Q :=
  ⟨fun a => ⟨-a.n, a.d⟩⟩

instance : Sub Q :=
  ⟨fun a b => a + (-b)⟩

instance : Div Q :=
  ⟨fun a b =>
    if b.n < 0 then Q.normalize (-(a.n * (b.d : Int))) (a.d * b.n.natAbs)
    else Q.normalize (a.n * (b.d : Int)) (a.d * b.n.natAbs)⟩

/-- Strict comparison by cross multiplication. -/
def Q.blt (a b : Q) : Bool := a.n * (b.d : Int) < b.n * (a.d : Int)

instance : LT Q := ⟨fun a b => Q.blt a b = true⟩

instance (a b : Q) : Decidable (a < b) :=
  inferInstanceAs (Decidable (Q.blt a b = true))

/-- Floor of a rational as an integer (floored division). -/
def Q.floor (q : Q) : Int := Int.fdiv q.n (q.d : Int)

instance : ToString Q := ⟨fun q => toString q.n ++ "/" ++ toString q.d⟩

/-! ### Dynamic cell values (pandas object cells) -/

/-- A pandas DataFrame cell as the pipeline uses it: a string, a float
(modelled by `Q`), an integer, or the null marker (NaN / NaT / None). -/
inductive Value where
  | str : String → Value
  | num : Q → Value
  | intv : Int → Value
  | null : Value
deriving DecidableEq, Repr

/-- One record of the pipeline table. The seven columns are exactly the
keys built by `FashionProductParser.parse` (utils/extract.py 89-97); every
cell is dynamically typed as in a pandas object column. -/
structure Row where
  Title : Value
  Price : Value
  Rating : Value
  Colors : Value
  Size : Value
  Gender : Value
  Timestamp : Value
deriving DecidableEq, Repr

/-! ### Models of the two concrete regexes in utils/transform.py -/

/-- Digits of a char run as a natural number (chars assumed decimal digits). -/
def digitsToNat (ds : List Char) : Nat :=
  ds.foldl (fun a c => a * 10 + (c.toNat - 48)) 0

/-- Attempt to match the rating regex at the head of the char list.
The regex is `'⭐\s*(\d+\.\d+)'` (utils/transform.py line 20): a star
glyph, optional whitespace, then the captured decimal number with a
mandatory fractional part. Returns the captured chars. -/
def ratingAt (l : List Char) : Option (List Char) :=
  match l with
  | [] => none
  | c :: rest =>
    if c = '⭐' then
      let rest2 := rest.dropWhile Char.isWhitespace
      let d1 := rest2.takeWhile Char.isDigit
      let r1 := rest2.dropWhile Char.isDigit
      if d1 = [] then none
      else
        match r1 with
        | [] => none
        | c2 :: r2 =>
          if c2 = '.' then
            let d2 := r2.takeWhile Char.isDigit
            if d2 = [] then none else some (d1 ++ '.' :: d2)
          else none
    else none

/-- Model of `re`-style search for the rating regex: try to match at each
position, first success wins (the capture of the first match, as
`Series.str.extract` returns). -/
def searchRating : List Char → Option (List Char)
  | [] => none
  | c :: rest =>
    match ratingAt (c :: rest) with
    | some g => some g
    | none => searchRating rest

/-- Model of search for the colors regex `'(\d+)'` (utils/transform.py
line 46): the first maximal run of digits. -/
def searchDigits : List Char → Option (List Char)
  | [] => none
  | c :: rest =>
    if c.isDigit then some (c :: rest.takeWhile Char.isDigit)
    else searchDigits rest

/-! ### Model of Python float parsing and rounding -/

/-- Unsigned decimal literal: digits, optionally a dot and more digits,
with at least one digit overall (`10`, `10.`, `.5`, `10.00`). Model of the
numeric core accepted by Python `float()` / pandas `astype(float)`;
exponent forms are outside the shapes this pipeline meets and are
rejected, which only narrows the set of accepted strings. -/
def parseFloatCore (cs : List Char) : Option Q :=
  let ip := cs.takeWhile Char.isDigit
  let r1 := cs.dropWhile Char.isDigit
  match r1 with
  | [] => if ip = [] then none else some (Q.ofNat (digitsToNat ip))
  | c :: r2 =>
    if c = '.' then
      let fp := r2.takeWhile Char.isDigit
      let r3 := r2.dropWhile Char.isDigit
      if r3 = [] ∧ (ip ≠ [] ∨ fp ≠ []) then
        some (Q.ofNat (digitsToNat ip) + Q.ofNat (digitsToNat fp) / Q.ofNat (10 ^ fp.length))
      else none
    else none

/-- Model of Python `float(s)`: surrounding whitespace allowed, optional
sign, then a decimal literal; `none` models `ValueError`. -/
def parseFloat (s : String) : Option Q :=
  match trimChars s.data with
  | [] => none
  | c :: rest =>
    if c = '-' then (parseFloatCore rest).map (fun q => -q)
    else if c = '+' then parseFloatCore rest
    else parseFloatCore (c :: rest)

/-- Round a rational to the nearest integer, ties to even — the rounding
Python `round` and pandas `Series.round` use. -/
def roundHalfEven (x : Q) : Int :=
  let f : Int := x.floor
  let frac : Q := x - Q.ofInt f
  if frac < Q.ofNat 1 / Q.ofNat 2 then f
  else if Q.ofNat 1 / Q.ofNat 2 < frac then f + 1
  else if f % 2 = 0 then f else f + 1

/-- Model of `Series.round(places)` on a single value. -/
def roundTo (x : Q) (places : Nat) : Q :=
  let m : Q := Q.ofNat (10 ^ places)
  Q.ofInt (roundHalfEven (x * m)) / m

/-! ### Column-wise conversions (pandas astype and friends) -/

/-- Model of `Series.astype(float)` on one cell: strings go through
`float()` and raise on failure (the `Except.error` case), numbers pass
through, NaN stays NaN. -/
def astypeFloat (v : Value) : Except String Value :=
  match v with
  | .str s =>
    match parseFloat s with
    | some q => .ok (.num q)
    | none => .error "could not convert string to float"
  | .num q => .ok (.num q)
  | .intv n => .ok (.num (Q.ofInt n))
  | .null => .ok .null

/-- Model of `Series.astype(str)` on one cell: strings unchanged, NaN
prints as the string nan, numbers print. -/
def astypeStr (v : Value) : Value :=
  match v with
  | .str s => .str s
  | .num q => .str (toString q)
  | .intv n => .str (toString n)
  | .null => .str "nan"

/-- Error-propagating row traversal: all rows convert or the whole column
operation fails, exactly the all-or-nothing behaviour of a pandas
column-wise `astype`. -/
def traverseE (f : Row → Except String Row) : List Row → Except String (List Row)
  | [] => .ok []
  | x :: xs =>
    match f x, traverseE f xs with
    | .ok y, .ok ys => .ok (y :: ys)
    | .error e, _ => .error e
    | .ok _, .error e => .error e

/-! ### The five cleaners (utils/transform.py) -/

/-- The rating sentinel from DEFAULT_VALUES in utils/config.py. -/
def ratingSentinel : String := "Invalid Rating"

/-- Model of `df['Rating'].str.extract(r'⭐\s*(\d+\.\d+)')` on one cell:
a string cell becomes the first capture or NaN; a `.str` accessor
operation yields NaN on non-string cells. -/
def ratingExtractCell (v : Value) : Value :=
  match v with
  | .str s =>
    match searchRating s.data with
    | some g => .str (String.mk g)
    | none => .null
  | _ => .null

/-- Embedding of `RatingCleaner.clean` (utils/transform.py 16-22):
filter out rows whose Rating equals the sentinel, extract the
star-decimal capture, then `astype(float)` the column. -/
def ratingClean (df : List Row) : Except String (List Row) :=
  traverseE
    (fun r => (astypeFloat (ratingExtractCell r.Rating)).map
      (fun v => { r with Rating := v }))
    (df.filter (fun r => decide (r.Rating ≠ Value.str ratingSentinel)))

/-- Model of `.str.replace('$','').str.replace(',','')` on one cell:
remove every dollar sign and comma from a string; a `.str` operation on a
non-string cell yields NaN. -/
def stripPrice (s : String) : String :=
  String.mk (s.data.filter (fun c => decide (c ≠ '$' ∧ c ≠ ',')))

def priceStripCell (v : Value) : Value :=
  match v with
  | .str s => .str (stripPrice s)
  | _ => .null

/-- One Price cell through `PriceCleaner.clean` (utils/transform.py
32-37): strip currency characters, `astype(float)`, multiply by the
exchange rate, round to the configured decimal places (NaN propagates
through arithmetic and rounding). -/
def priceCellClean (rate : Q) (places : Nat) (v : Value) : Except String Value :=
  match astypeFloat (priceStripCell v) with
  | .error e => .error e
  | .ok (.num q) => .ok (.num (roundTo (q * rate) places))
  | .ok w => .ok w

/-- Embedding of `PriceCleaner.clean` over the table. -/
def priceClean (rate : Q) (places : Nat) (df : List Row) : Except String (List Row) :=
  traverseE
    (fun r => (priceCellClean rate places r.Price).map (fun v => { r with Price := v }))
    df

/-- One Colors cell through `ColorsCleaner.clean` (utils/transform.py
43-47): `str.extract(r'(\d+)')` then `astype(int)`; a cell where the
extract gave NaN makes the integer conversion raise. -/
def colorsCellClean (v : Value) : Except String Value :=
  match v with
  | .str s =>
    match searchDigits s.data with
    | some d => .ok (.intv (digitsToNat d : Int))
    | none => .error "cannot convert non-finite values to integer"
  | _ => .error "cannot convert non-finite values to integer"

/-- Embedding of `ColorsCleaner.clean` over the table. -/
def colorsClean (df : List Row) : Except String (List Row) :=
  traverseE
    (fun r => (colorsCellClean r.Colors).map (fun v => { r with Colors := v }))
    df

/-- Embedding of `AttributeCleaner.clean` (utils/transform.py 53-58):
`astype(str)` on Size and Gender; never raises. -/
def attributeClean (df : List Row) : List Row :=
  df.map (fun r => { r with Size := astypeStr r.Size, Gender := astypeStr r.Gender })

/-! ### Timestamp parsing and formatting -/

/-- A parsed wall-clock instant: year, month, day, hour, minute, second. -/
structure Ts where
  year : Nat
  month : Nat
  day : Nat
  hour : Nat
  minute : Nat
  second : Nat
deriving DecidableEq, Repr

/-- Two digit chars as a number, when both are digits. -/
def twoDigits (a b : Char) : Option Nat :=
  if a.isDigit ∧ b.isDigit then some ((a.toNat - 48) * 10 + (b.toNat - 48)) else none

/-- Model of `pd.to_datetime` (an external library call) on the canonical
timestamp text shape this pipeline produces and tests,
YYYY-MM-DD HH:MM:SS; any other text is unparsable and yields `none`
(which under errors='coerce' becomes NaT, never an exception). -/
def parseTs (s : String) : Option Ts :=
  match s.data with
  | [y1, y2, y3, y4, '-', m1, m2, '-', d1, d2, ' ', h1, h2, ':', n1, n2, ':', s1, s2] =>
    match twoDigits y1 y2, twoDigits y3 y4, twoDigits m1 m2, twoDigits d1 d2,
          twoDigits h1 h2, twoDigits n1 n2, twoDigits s1 s2 with
    | some yh, some yl, some mo, some d, some h, some mi, some se =>
      if 1 ≤ mo ∧ mo ≤ 12 ∧ 1 ≤ d ∧ d ≤ 31 ∧ h ≤ 23 ∧ mi ≤ 59 ∧ se ≤ 59 then
        some ⟨yh * 100 + yl, mo, d, h, mi, se⟩
      else none
    | _, _, _, _, _, _, _ => none
  | _ => none

/-- Zero-pad to two digits. -/
def pad2 (n : Nat) : String :=
  if n < 10 then "0" ++ toString n else toString n

/-- Zero-pad to four digits. -/
def pad4 (n : Nat) : String :=
  if n < 10 then "000" ++ toString n
  else if n < 100 then "00" ++ toString n
  else if n < 1000 then "0" ++ toString n
  else toString n

/-- The date part of the strftime format `%Y-%m-%d`. -/
def datePart (t : Ts) : String :=
  pad4 t.year ++ "-" ++ pad2 t.month ++ "-" ++ pad2 t.day

/-- The time part of the strftime format `%H:%M:%S.%f`: microseconds are
always zero for second-precision parses, printed as six zeros. -/
def timePart (t : Ts) : String :=
  pad2 t.hour ++ ":" ++ pad2 t.minute ++ ":" ++ pad2 t.second ++ ".000000"

/-- Model of `strftime('%Y-%m-%dT%H:%M:%S.%f')`: the ISO-8601 text with a
literal T separator and microsecond precision. -/
def formatIso (t : Ts) : String :=
  datePart t ++ "T" ++ timePart t

/-- One Timestamp cell through `TimestampCleaner.clean` (utils/transform.py
64-68): `pd.to_datetime(..., errors='coerce')` then strftime; an
unparsable value coerces to NaT and formats as the null marker. Cells that
are not timestamp-like text (numbers, NaN) also coerce to NaT in this
model; no cell value ever raises. -/
def tsCell (v : Value) : Value :=
  match v with
  | .str s =>
    match parseTs s with
    | some t => .str (formatIso t)
    | none => .null
  | _ => .null

/-- Embedding of `TimestampCleaner.clean` over the table; total. -/
def timestampClean (df : List Row) : List Row :=
  df.map (fun r => { r with Timestamp := tsCell r.Timestamp })

/-! ### FashionDataTransformer (utils/transform.py 71-97) -/

/-- `TRANSFORMATION_CONFIG["usd_to_idr_rate"]` (utils/config.py line 77). -/
def TRANSFORMATION_CONFIG_rate : Q := 16000

/-- `TRANSFORMATION_CONFIG["price_decimal_places"]` (utils/config.py line 78). -/
def TRANSFORMATION_CONFIG_places : Nat := 1

/-- The `PriceCleaner` instance state (utils/transform.py 28-30). -/
structure PriceCleaner where
  usd_to_idr_rate : Q
  decimal_places : Nat
deriving DecidableEq, Repr

/-- Embedding of `PriceCleaner.__init__`: the Python `x or DEFAULT` idiom
— `None` falls back to the config default, and so does a falsy `0`. -/
def PriceCleaner.init (rate? : Option Q) (places? : Option Nat) : PriceCleaner :=
  { usd_to_idr_rate :=
      match rate? with
      | some r => if r = 0 then TRANSFORMATION_CONFIG_rate else r
      | none => TRANSFORMATION_CONFIG_rate
    decimal_places :=
      match places? with
      | some p => if p = 0 then TRANSFORMATION_CONFIG_places else p
      | none => TRANSFORMATION_CONFIG_places }

/-- Embedding of the try block of `FashionDataTransformer.transform`
(utils/transform.py 83-93): the five cleaners in their fixed order, with
errors propagated. The transformer is built with `PriceCleaner()`, so the
price stage runs at the config defaults. Rating extraction, the attribute
conversion and the coercing timestamp conversion are total; conversion
errors arise in the float column cast of the price stage and the integer
column cast of the colors stage. -/
def transformE (df : List Row) : Except String (List Row) :=
  match ratingClean df with
  | .error e => .error e
  | .ok d1 =>
    match priceClean TRANSFORMATION_CONFIG_rate TRANSFORMATION_CONFIG_places d1 with
    | .error e => .error e
    | .ok d2 =>
      match colorsClean d2 with
      | .error e => .error e
      | .ok d3 => .ok (timestampClean (attributeClean d3))

/-- Embedding of `FashionDataTransformer.transform` (utils/transform.py
81-97): the single failure boundary — any cleaner error is caught and an
empty table returned. -/
def transform (df : List Row) : List Row :=
  match transformE df with
  | .ok t => t
  | .error _ => []

/-! ### FashionDataExtractor (utils/extract.py 104-153) -/

/-- One catalog-entry card of a fetched page, as the page loop sees it:
`parseResult` is the outcome of `self.product_parser.parse(card)` —
`none` when parse returned None or raised (both are skipped by the inner
try/except, utils/extract.py 136-142). -/
structure Card where
  parseResult : Option Row
deriving DecidableEq, Repr

/-- Records appended for one page: every successfully parsed card, in
card order (utils/extract.py 136-140). An empty card list contributes
nothing (the `continue` branch, lines 132-134). -/
def pageRecords (cards : List Card) : List Row :=
  cards.filterMap (fun c => c.parseResult)

/-- Embedding of the page loop of `FashionDataExtractor.extract`
(utils/extract.py 121-151). The whole fetch-and-parse of a page is the
external behaviour parameter `fetch : Nat -> Option (List Card)`: `none`
models a failed fetch (`self.content_fetcher.fetch` returned None), and
`some cards` a fetched page with its parsed card list. `page` is the next
page number, `remaining` how many configured pages are left. On a fetch
failure the loop breaks; otherwise the page records are appended and the
loop advances. -/
def extractPages (fetch : Nat → Option (List Card)) : Nat → Nat → List Row
  | _, 0 => []
  | page, rem + 1 =>
    match fetch page with
    | none => []
    | some cards => pageRecords cards ++ extractPages fetch (page + 1) rem

/-- Embedding of `FashionDataExtractor.extract` with `total_pages`
configured: pages 1 .. total_pages. -/
def extract (fetch : Nat → Option (List Card)) (total_pages : Nat) : List Row :=
  extractPages fetch 1 total_pages

/-- The pages on which the loop invokes the fetcher, in order: the loop
fetches a page and continues past it only when the fetch succeeded. -/
def fetchedPages (fetch : Nat → Option (List Card)) : Nat → Nat → List Nat
  | _, 0 => []
  | page, rem + 1 =>
    page ::
      match fetch page with
      | none => []
      | some _ => fetchedPages fetch (page + 1) rem

/-- The concatenated records of `len` consecutive pages starting at
`start`, page order preserved, for a fetcher on which those pages
succeed. -/
def pagesConcat (fetch : Nat → Option (List Card)) : Nat → Nat → List Row
  | _, 0 => []
  | start, len + 1 =>
    pageRecords ((fetch start).getD []) ++ pagesConcat fetch (start + 1) len

/-! ### Loaders (utils/load.py) -/

/-- The table handed to the loaders: column labels plus rows of cells, the
shape of the DataFrame the loaders serialize. -/
structure Frame where
  cols : List String
  rows : List (List Value)
deriving DecidableEq, Repr

/-- Model of `DataFrame.copy()`: a fresh frame with the same contents. -/
def Frame.copy (f : Frame) : Frame :=
  ⟨f.cols, f.rows⟩

/-- Model of `data_for_sql.columns = [col.lower() for col in ...]`
(utils/load.py 58) applied to a frame. -/
def lowerFrameCols (f : Frame) : Frame :=
  ⟨f.cols.map String.toLower, f.rows⟩

/-- Outcome of an external destination write, supplied as a parameter: the
payload-consuming effect either succeeds or raises (disk full, connection
refused, invalid credentials, ...). -/
abbrev WriteFx := Frame → Except String Unit

/-- Embedding of `CsvDataLoader.load` (utils/load.py 29-38): `to_csv` on
the caller's frame inside try/except; True on success, False on any
exception; the caller's frame afterwards is the second component. -/
def CsvDataLoader.load (data : Frame) (toCsvFx : WriteFx) : Bool × Frame :=
  match toCsvFx data with
  | .ok _ => (true, data)
  | .error _ => (false, data)

/-- Embedding of `PostgreSQLDataLoader.load` (utils/load.py 47-66): copy
the frame, lower-case the columns of the copy, hand the copy to the
database write; True on success, False on any exception; the caller's
frame afterwards is the second component. -/
def PostgreSQLDataLoader.load (data : Frame) (toSqlFx : WriteFx) : Bool × Frame :=
  let data_for_sql := lowerFrameCols data.copy
  match toSqlFx data_for_sql with
  | .ok _ => (true, data)
  | .error _ => (false, data)

/-- Embedding of `GoogleSheetsDataLoader.load` (utils/load.py 75-107):
credentials plus the clear call are the first effect (both precede the
body build); then header row and data rows are sent to the update call;
True on success, False on any exception; the caller's frame afterwards is
the second component. -/
def GoogleSheetsDataLoader.load (data : Frame) (clearFx : Except String Unit)
    (updateFx : List (List Value) → Except String Unit) : Bool × Frame :=
  match clearFx with
  | .error _ => (false, data)
  | .ok _ =>
    let values := (data.cols.map Value.str) :: data.rows
    match updateFx values with
    | .ok _ => (true, data)
    | .error _ => (false, data)

/-- The per-destination result mapping returned by `load_to_all`: exactly
the three keys written at utils/load.py 145-147. -/
structure LoadResults where
  csv : Bool
  postgresql : Bool
  google_sheets : Bool
deriving DecidableEq, Repr

/-- The external write effects of the three destinations of one
`load_to_all` call. -/
structure DestFx where
  csvFx : WriteFx
  pgFx : WriteFx
  sheetsClearFx : Except String Unit
  sheetsUpdateFx : List (List Value) → Except String Unit

/-- Embedding of `MultiDestinationDataLoader.load_to_all` (utils/load.py
118-149): the three loaders invoked in sequence on the same table, each
result recorded under its destination key; the caller's frame is threaded
through the calls and returned as the second component. -/
def MultiDestinationDataLoader.load_to_all (data : Frame) (fx : DestFx) :
    LoadResults × Frame :=
  let r1 := CsvDataLoader.load data fx.csvFx
  let r2 := PostgreSQLDataLoader.load r1.2 fx.pgFx
  let r3 := GoogleSheetsDataLoader.load r2.2 fx.sheetsClearFx fx.sheetsUpdateFx
  ({ csv := r1.1, postgresql := r2.1, google_sheets := r3.1 }, r3.2)

/-- Success test of an external effect outcome. -/
def okB : Except String Unit → Bool
  | .ok _ => true
  | .error _ => false

/-! ## Theorems about RegexTextExtractor.extract_text -/

/-- The scan step the loop body performs on one element: a hit is an
element whose direct string is present, nonempty, contains the keyword and
matches the pattern; its value is the stripped first capture. -/
def elementHit (keyword : String) (pattern : String → Option String) (e : Element) :
    Option String :=
  match e.string with
  | some s =>
    if s ≠ "" ∧ subIn keyword s then (pattern s).map pyStrip else none
  | none => none

/-- The transform-side rating regex packaged as a pattern argument for
`extract_text` (capture group returned as a string). -/
def ratingPattern (s : String) : Option String :=
  (searchRating s.data).map String.mk

/-- C1, counterexample. The claim says that when the first fragment whose
raw text contains the keyword fails the pattern, the default is returned
even when a later fragment would match both keyword and pattern. On the
fragment list [Rating: bad, Rating: ⭐ 4.5] with keyword Rating the code
returns the capture 4.5 from the second fragment, not the default. -/
theorem C1_counterexample :
    extract_text
      [⟨some "Rating: bad", "Rating: bad"⟩, ⟨some "Rating: ⭐ 4.5", "Rating: ⭐ 4.5"⟩]
      "Rating" ratingPattern "N/A" = "4.5" ∧
    ("4.5" : String) ≠ "N/A" := by
  constructor
  · decide
  · decide

/-- C1, amended. extract_text scans the fragments in order and returns the
stripped first capture group of the first fragment that has a present,
nonempty direct string containing the keyword AND whose text matches the
pattern; a keyword-containing fragment whose pattern fails to match is
skipped and later fragments are tried; the default is returned only when
no fragment both contains the keyword and matches the pattern. -/
theorem C1_extract_text_first_full_match (elements : List Element) (keyword : String)
    (pattern : String → Option String) (default : String) :
    extract_text elements keyword pattern default =
      (elements.findSome? (elementHit keyword pattern)).getD default := by
  induction elements with
  | nil => rfl
  | cons e rest ih =>
    cases h : e.string with
    | none => simp [extract_text, List.findSome?_cons, elementHit, h, ih]
    | some s =>
      by_cases hc : s ≠ "" ∧ subIn keyword s
      · cases hp : pattern s with
        | none => simp [extract_text, List.findSome?_cons, elementHit, h, hc, hp, ih]
        | some g => simp [extract_text, List.findSome?_cons, elementHit, h, hc, hp]
      · simp [extract_text, List.findSome?_cons, elementHit, h, hc, ih]

/-- C10: extract_text only considers fragments whose direct string content
is present and non-empty; a fragment whose direct string is absent (for
example an element with nested markup) or empty is skipped even when its
rendered text contains the keyword, so a list consisting only of such
fragments yields the default. -/
theorem C10_skips_fragments_without_direct_string (elements : List Element)
    (keyword : String) (pattern : String → Option String) (default : String)
    (h : ∀ e ∈ elements, e.string = none ∨ e.string = some "") :
    extract_text elements keyword pattern default = default := by
  induction elements with
  | nil => rfl
  | cons e rest ih =>
    have hrest : ∀ x ∈ rest, x.string = none ∨ x.string = some "" :=
      fun x hx => h x (by simp [hx])
    rcases h e (by simp) with he | he
    · simpa [extract_text, he] using ih hrest
    · simpa [extract_text, he] using ih hrest

/-- C10, witness: both fragments have rendered text containing the
keyword Rating and matching the rating pattern, but one has no direct
string and the other an empty one, so the default is returned. -/
theorem C10_witness :
    (∀ e ∈ ([⟨none, "Rating: ⭐ 4.5"⟩, ⟨some "", "Rating: ⭐ 4.5"⟩] : List Element),
      e.string = none ∨ e.string = some "") ∧
    extract_text [⟨none, "Rating: ⭐ 4.5"⟩, ⟨some "", "Rating: ⭐ 4.5"⟩]
      "Rating" ratingPattern "N/A" = "N/A" :=
  ⟨by decide,
   C10_skips_fragments_without_direct_string _ "Rating" ratingPattern "N/A" (by decide)⟩

/-! ## Helper lemmas about the error-propagating traversal -/

/-- A raw record as the parser produces it: seven string cells. -/
def mkRaw (t p ra c sz g ts : String) : Row :=
  ⟨.str t, .str p, .str ra, .str c, .str sz, .str g, .str ts⟩

theorem traverseE_ok_of_all {f : Row → Except String Row} :
    ∀ {l : List Row}, (∀ r ∈ l, ∃ y, f r = .ok y) →
      ∃ l', traverseE f l = .ok l' := by
  intro l
  induction l with
  | nil => intro _; exact ⟨[], rfl⟩
  | cons x xs ih =>
    intro h
    obtain ⟨y, hy⟩ := h x (by simp)
    obtain ⟨l', hl'⟩ := ih (fun r hr => h r (by simp [hr]))
    exact ⟨y :: l', by simp [traverseE, hy, hl']⟩

theorem traverseE_ok_mem_rev {f : Row → Except String Row} :
    ∀ {l l' : List Row}, traverseE f l = .ok l' →
      ∀ r' ∈ l', ∃ r ∈ l, f r = .ok r' := by
  intro l
  induction l with
  | nil =>
    intro l' h r' hr'
    simp only [traverseE] at h
    cases h
    simp at hr'
  | cons x xs ih =>
    intro l' h r' hr'
    simp only [traverseE] at h
    cases hfx : f x with
    | error e => rw [hfx] at h; cases h
    | ok y =>
      rw [hfx] at h
      cases hxs : traverseE f xs with
      | error e => rw [hxs] at h; cases h
      | ok ys =>
        rw [hxs] at h
        cases h
        rcases List.mem_cons.mp hr' with h1 | h1
        · exact ⟨x, by simp, by rw [hfx, h1]⟩
        · obtain ⟨r, hr, hfr⟩ := ih hxs r' h1
          exact ⟨r, by simp [hr], hfr⟩

theorem traverseE_ok_mem_fwd {f : Row → Except String Row} :
    ∀ {l l' : List Row}, traverseE f l = .ok l' →
      ∀ r ∈ l, ∀ y, f r = .ok y → y ∈ l' := by
  intro l
  induction l with
  | nil => intro l' _ r hr; simp at hr
  | cons x xs ih =>
    intro l' h r hr y hy
    simp only [traverseE] at h
    cases hfx : f x with
    | error e => rw [hfx] at h; cases h
    | ok z =>
      rw [hfx] at h
      cases hxs : traverseE f xs with
      | error e => rw [hxs] at h; cases h
      | ok ys =>
        rw [hxs] at h
        cases h
        rcases List.mem_cons.mp hr with h1 | h1
        · subst h1
          rw [hfx] at hy
          cases hy
          simp
        · exact List.mem_cons.mpr (Or.inr (ih hxs r h1 y hy))

/-! ## Facts about scanning digits, whitespace and the rating capture -/

theorem takeWhile_all {p : Char → Bool} :
    ∀ {l : List Char}, (∀ x ∈ l, p x = true) → l.takeWhile p = l := by
  intro l
  induction l with
  | nil => intro _; rfl
  | cons x xs ih =>
    intro h
    simp [List.takeWhile_cons, h x (by simp), ih (fun y hy => h y (by simp [hy]))]

theorem dropWhile_all {p : Char → Bool} :
    ∀ {l : List Char}, (∀ x ∈ l, p x = true) → l.dropWhile p = [] := by
  intro l
  induction l with
  | nil => intro _; rfl
  | cons x xs ih =>
    intro h
    simp [List.dropWhile_cons, h x (by simp), ih (fun y hy => h y (by simp [hy]))]

theorem dropWhile_none {p : Char → Bool} :
    ∀ {l : List Char}, (∀ x ∈ l, p x = false) → l.dropWhile p = l := by
  intro l
  induction l with
  | nil => intro _; rfl
  | cons x xs ih =>
    intro h
    simp [List.dropWhile_cons, h x (by simp)]

theorem takeWhile_append_stop {p : Char → Bool} {c : Char} {b : List Char} :
    ∀ {a : List Char}, (∀ x ∈ a, p x = true) → p c = false →
      (a ++ c :: b).takeWhile p = a := by
  intro a
  induction a with
  | nil => intro _ hc; simp [List.takeWhile_cons, hc]
  | cons x xs ih =>
    intro h hc
    simp [List.takeWhile_cons, h x (by simp),
      ih (fun y hy => h y (by simp [hy])) hc]

theorem dropWhile_append_stop {p : Char → Bool} {c : Char} {b : List Char} :
    ∀ {a : List Char}, (∀ x ∈ a, p x = true) → p c = false →
      (a ++ c :: b).dropWhile p = c :: b := by
  intro a
  induction a with
  | nil => intro _ hc; simp [List.dropWhile_cons, hc]
  | cons x xs ih =>
    intro h hc
    simp [List.dropWhile_cons, h x (by simp),
      ih (fun y hy => h y (by simp [hy])) hc]

/-- A decimal digit is not whitespace. -/
theorem digit_not_ws {c : Char} (h : c.isDigit = true) : c.isWhitespace = false := by
  by_contra hw
  rw [Bool.not_eq_false] at hw
  simp only [Char.isWhitespace, Bool.or_eq_true, decide_eq_true_eq] at hw
  rcases hw with ((rfl | rfl) | rfl) | rfl <;> exact absurd h (by decide)

/-- A whitespace-free char list is unchanged by stripping. -/
theorem trimChars_id {l : List Char} (h : ∀ x ∈ l, x.isWhitespace = false) :
    trimChars l = l := by
  unfold trimChars
  rw [dropWhile_none h, dropWhile_none (fun x hx => h x (List.mem_reverse.mp hx)),
    List.reverse_reverse]

/-- Shape of a rating-regex capture: digits, a dot, digits. -/
theorem ratingAt_shape {l g : List Char} (h : ratingAt l = some g) :
    ∃ a b, g = a ++ '.' :: b ∧ a ≠ [] ∧ b ≠ [] ∧
      (∀ x ∈ a, x.isDigit = true) ∧ (∀ x ∈ b, x.isDigit = true) := by
  cases l with
  | nil => simp [ratingAt] at h
  | cons c rest =>
    by_cases hc : c = '⭐'
    · subst hc
      by_cases h1 : (rest.dropWhile Char.isWhitespace).takeWhile Char.isDigit = []
      · simp [ratingAt, h1] at h
      · cases hr1 : (rest.dropWhile Char.isWhitespace).dropWhile Char.isDigit with
        | nil => simp [ratingAt, h1, hr1] at h
        | cons c2 r2 =>
          by_cases hc2 : c2 = '.'
          · subst hc2
            by_cases h2 : r2.takeWhile Char.isDigit = []
            · simp [ratingAt, h1, hr1, h2] at h
            · simp only [ratingAt, h1, hr1, if_pos rfl, if_neg h1, if_neg h2,
                ite_false, ite_true] at h
              rw [Option.some.injEq] at h
              exact ⟨(rest.dropWhile Char.isWhitespace).takeWhile Char.isDigit,
                r2.takeWhile Char.isDigit, h.symm, h1, h2,
                fun x hx => List.mem_takeWhile_imp hx,
                fun x hx => List.mem_takeWhile_imp hx⟩
          · simp [ratingAt, h1, hr1, hc2] at h
    · simp [ratingAt, hc] at h

/-- Shape of any successful rating-regex search result. -/
theorem searchRating_shape {cs g : List Char} (h : searchRating cs = some g) :
    ∃ a b, g = a ++ '.' :: b ∧ a ≠ [] ∧ b ≠ [] ∧
      (∀ x ∈ a, x.isDigit = true) ∧ (∀ x ∈ b, x.isDigit = true) := by
  induction cs with
  | nil => exact absurd h (by simp [searchRating])
  | cons c rest ih =>
    simp only [searchRating] at h
    cases ha : ratingAt (c :: rest) with
    | some g0 =>
      rw [ha] at h
      cases h
      exact ratingAt_shape ha
    | none =>
      rw [ha] at h
      exact ih h

/-- A digits-dot-digits char list parses as a float. -/
theorem parseFloat_digits {a b : List Char} (ha : a ≠ []) (_hb : b ≠ [])
    (hda : ∀ x ∈ a, x.isDigit = true) (hdb : ∀ x ∈ b, x.isDigit = true) :
    ∃ q, parseFloat (String.mk (a ++ '.' :: b)) = some q := by
  have hnw : ∀ x ∈ a ++ '.' :: b, x.isWhitespace = false := by
    intro x hx
    rcases List.mem_append.mp hx with h1 | h1
    · exact digit_not_ws (hda x h1)
    · rcases List.mem_cons.mp h1 with rfl | h2
      · decide
      · exact digit_not_ws (hdb x h2)
  have hdata : (String.mk (a ++ '.' :: b)).data = a ++ '.' :: b := rfl
  have hcore : parseFloatCore (a ++ '.' :: b) =
      some (Q.ofNat (digitsToNat a) + Q.ofNat (digitsToNat b) /
        Q.ofNat (10 ^ b.length)) := by
    have hdot : ('.' : Char).isDigit = false := by decide
    simp only [parseFloatCore, takeWhile_append_stop hda hdot,
      dropWhile_append_stop hda hdot, if_pos rfl, takeWhile_all hdb,
      dropWhile_all hdb]
    simp [ha]
  obtain ⟨x, a', rfl⟩ : ∃ x a', a = x :: a' := by
    cases a with
    | nil => exact absurd rfl ha
    | cons x a' => exact ⟨x, a', rfl⟩
  have hxd : x.isDigit = true := hda x (by simp)
  have hx1 : x ≠ '-' := by intro hx; rw [hx] at hxd; exact absurd hxd (by decide)
  have hx2 : x ≠ '+' := by intro hx; rw [hx] at hxd; exact absurd hxd (by decide)
  refine ⟨Q.ofNat (digitsToNat (x :: a')) + Q.ofNat (digitsToNat b) /
    Q.ofNat (10 ^ b.length), ?_⟩
  simp only [parseFloat, hdata, trimChars_id hnw]
  rw [List.cons_append]
  simp only [if_neg hx1, if_neg hx2]
  rw [← List.cons_append]
  exact hcore

/-- The rating extract-then-cast of a cell never raises and never yields a
string cell. -/
theorem ratingCell_ok (v : Value) :
    ∃ w, astypeFloat (ratingExtractCell v) = .ok w ∧ ∀ t, w ≠ Value.str t := by
  cases v with
  | str s =>
    cases hsr : searchRating s.data with
    | none => exact ⟨.null, by simp [ratingExtractCell, hsr, astypeFloat], by simp⟩
    | some g =>
      obtain ⟨a, b, rfl, ha, hb, hda, hdb⟩ := searchRating_shape hsr
      obtain ⟨q, hq⟩ := parseFloat_digits ha hb hda hdb
      exact ⟨.num q, by simp [ratingExtractCell, hsr, astypeFloat, hq], by simp⟩
  | num q => exact ⟨.null, by simp [ratingExtractCell, astypeFloat], by simp⟩
  | intv n => exact ⟨.null, by simp [ratingExtractCell, astypeFloat], by simp⟩
  | null => exact ⟨.null, by simp [ratingExtractCell, astypeFloat], by simp⟩

/-- The rating cleaner never fails. -/
theorem ratingClean_ok (df : List Row) : ∃ d1, ratingClean df = .ok d1 := by
  unfold ratingClean
  apply traverseE_ok_of_all
  intro r _
  obtain ⟨w, hw, _⟩ := ratingCell_ok r.Rating
  exact ⟨{ r with Rating := w }, by simp [hw, Except.map]⟩

/-! ## Theorems about FashionDataTransformer.transform -/

/-- C3: the five cleaners run inside one failure boundary — when any of
them raises, transform returns the empty table; otherwise it returns the
fully cleaned table, never a partially cleaned one; in particular a raw
table with the unparseable price INVALID yields the empty table. -/
theorem C3_transform_all_or_nothing :
    (∀ df e, transformE df = .error e → transform df = []) ∧
    (∀ df, transformE df = .ok (transform df) ∨ transform df = []) ∧
    transform [mkRaw "Item A" "INVALID" "⭐ 4.0" "3 Colors" "M" "Male"
      "2025-05-10 10:00:00"] = [] := by
  refine ⟨?_, ?_, ?_⟩
  · intro df e h
    simp [transform, h]
  · intro df
    cases h : transformE df with
    | ok t => exact Or.inl (by simp [transform, h])
    | error e => exact Or.inr (by simp [transform, h])
  · decide

/-- C3, witness: on the concrete INVALID-price table the price cleaner
raises and transform returns the empty table. -/
theorem C3_witness :
    transformE [mkRaw "Item A" "INVALID" "⭐ 4.0" "3 Colors" "M" "Male"
        "2025-05-10 10:00:00"] = .error "could not convert string to float" ∧
    transform [mkRaw "Item A" "INVALID" "⭐ 4.0" "3 Colors" "M" "Male"
        "2025-05-10 10:00:00"] = [] :=
  ⟨rfl, C3_transform_all_or_nothing.1 _ _ rfl⟩

/-- Inversion of the per-row price step. -/
theorem priceRow_inv {rate : Q} {places : Nat} {r r' : Row}
    (h : (priceCellClean rate places r.Price).map (fun v => { r with Price := v }) =
      .ok r') :
    ∃ v, priceCellClean rate places r.Price = .ok v ∧ r' = { r with Price := v } := by
  cases hc : priceCellClean rate places r.Price with
  | error e => rw [hc] at h; simp [Except.map] at h
  | ok v =>
    rw [hc] at h
    simp only [Except.map, Except.ok.injEq] at h
    exact ⟨v, rfl, h.symm⟩

/-- Inversion of the per-row colors step. -/
theorem colorsRow_inv {r r' : Row}
    (h : (colorsCellClean r.Colors).map (fun v => { r with Colors := v }) = .ok r') :
    ∃ v, colorsCellClean r.Colors = .ok v ∧ r' = { r with Colors := v } := by
  cases hc : colorsCellClean r.Colors with
  | error e => rw [hc] at h; simp [Except.map] at h
  | ok v =>
    rw [hc] at h
    simp only [Except.map, Except.ok.injEq] at h
    exact ⟨v, rfl, h.symm⟩

/-- Inversion of the per-row rating step. -/
theorem ratingRow_inv {r r' : Row}
    (h : (astypeFloat (ratingExtractCell r.Rating)).map (fun v => { r with Rating := v }) =
      .ok r') :
    ∃ w, astypeFloat (ratingExtractCell r.Rating) = .ok w ∧
      r' = { r with Rating := w } := by
  cases hc : astypeFloat (ratingExtractCell r.Rating) with
  | error e => rw [hc] at h; simp [Except.map] at h
  | ok w =>
    rw [hc] at h
    simp only [Except.map, Except.ok.injEq] at h
    exact ⟨w, rfl, h.symm⟩

/-- A successful float cast never produces a string cell. -/
theorem astypeFloat_not_str {v w : Value} (h : astypeFloat v = .ok w) :
    ∀ t, w ≠ Value.str t := by
  cases v with
  | str s =>
    cases hp : parseFloat s with
    | none => rw [astypeFloat, hp] at h; cases h
    | some q =>
      rw [astypeFloat, hp] at h
      cases h
      simp
  | num q => cases h; simp
  | intv n => cases h; simp
  | null => cases h; simp

/-- The raw row with rating text that has a star but no fractional part. -/
def c2row : Row :=
  mkRaw "Item A" "$10.00" "⭐ 4" "3 Colors" "M" "Male" "2025-05-10 10:00:00"

/-- C2, counterexample. The claim says a post-filter row whose Rating text
does not match the star-plus-decimal shape (here ⭐ 4) makes the whole
transform fail, returning an empty table. On such a row the column cast
accepts the NaN the extract produced, so the row survives with a null
Rating and transform is not empty. -/
theorem C2_counterexample :
    transform [c2row] =
      [⟨.str "Item A", .num 160000, .null, .intv 3, .str "M", .str "Male",
        .str "2025-05-10T10:00:00.000000"⟩] ∧
    transform [c2row] ≠ [] := by
  constructor
  · decide
  · decide

/-- C2, amended: after sentinel filtering, a remaining row whose Rating
text does not match the star-glyph-plus-decimal shape does not cause a
conversion failure — the rating cleaner succeeds and keeps that row with a
null (NaN) Rating value. -/
theorem C2_nonmatching_rating_kept_as_null (df : List Row) (r : Row) (s : String)
    (hmem : r ∈ df) (hs : r.Rating = .str s) (hns : s ≠ ratingSentinel)
    (hnm : searchRating s.data = none) :
    ∃ d1, ratingClean df = .ok d1 ∧ { r with Rating := Value.null } ∈ d1 := by
  obtain ⟨d1, hd1⟩ := ratingClean_ok df
  refine ⟨d1, hd1, ?_⟩
  unfold ratingClean at hd1
  have hf : r ∈ df.filter (fun r => decide (r.Rating ≠ Value.str ratingSentinel)) := by
    rw [List.mem_filter]
    exact ⟨hmem, by simp [hs, hns]⟩
  have happ : (astypeFloat (ratingExtractCell r.Rating)).map
      (fun v => { r with Rating := v }) = .ok { r with Rating := Value.null } := by
    rw [hs]
    simp [ratingExtractCell, hnm, astypeFloat, Except.map]
  exact traverseE_ok_mem_fwd hd1 r hf _ happ

/-- C2, witness: the ⭐ 4 row is kept by the rating cleaner with a null
Rating. -/
theorem C2_witness :
    ∃ d1, ratingClean [c2row] = .ok d1 ∧ { c2row with Rating := Value.null } ∈ d1 :=
  C2_nonmatching_rating_kept_as_null [c2row] c2row "⭐ 4"
    (by decide) (by decide) (by decide) (by decide)

/-- The valid raw row of the C4 example. -/
def row45 : Row :=
  mkRaw "Item A" "$10.00" "⭐ 4.5" "3 Colors" "M" "Male" "2025-05-10 10:00:00"

/-- The sentinel-rating raw row of the C4 example. -/
def rowInvalid : Row :=
  mkRaw "Item B" "$20.00" "Invalid Rating" "5 Colors" "L" "Female" "2025-05-10 11:00:00"

/-- The cleaned form of `row45`. -/
def cleaned45 : Row :=
  ⟨.str "Item A", .num 160000, .num (Q.ofNat 9 / Q.ofNat 2), .intv 3,
    .str "M", .str "Male", .str "2025-05-10T10:00:00.000000"⟩

/-- C4: no row of the transformed table carries the rating sentinel — in
fact a transformed row's Rating is never a string cell at all, because
sentinel rows are dropped before conversion and every kept Rating becomes
a number or NaN; and on the example with ratings ⭐ 4.5 and
Invalid Rating the cleaned table is exactly the one 4.5 row. -/
theorem C4_no_sentinel_rating :
    (∀ df r, r ∈ transform df → ∀ t : String, r.Rating ≠ Value.str t) ∧
    transform [row45, rowInvalid] = [cleaned45] := by
  constructor
  · intro df r hr t
    unfold transform at hr
    split at hr
    next l htr =>
      unfold transformE at htr
      split at htr
      next e h1 => cases htr
      next d1 h1 =>
        split at htr
        next e h2 => cases htr
        next d2 h2 =>
          split at htr
          next e h3 => cases htr
          next d3 h3 =>
            cases htr
            simp only [timestampClean, attributeClean, List.map_map] at hr
            obtain ⟨r3, hr3, heq⟩ := List.mem_map.mp hr
            have hRat3 : r.Rating = r3.Rating := by rw [← heq]; rfl
            unfold colorsClean at h3
            obtain ⟨r2, hr2, hf2⟩ := traverseE_ok_mem_rev h3 r3 hr3
            obtain ⟨v2, _, rfl⟩ := colorsRow_inv hf2
            unfold priceClean at h2
            obtain ⟨r1, hr1, hf1⟩ := traverseE_ok_mem_rev h2 r2 hr2
            obtain ⟨v1, _, rfl⟩ := priceRow_inv hf1
            unfold ratingClean at h1
            obtain ⟨r0, _, hf0⟩ := traverseE_ok_mem_rev h1 r1 hr1
            obtain ⟨w, hw, rfl⟩ := ratingRow_inv hf0
            rw [hRat3]
            exact astypeFloat_not_str hw t
    next htr => simp at hr
  · decide

/-- C4, witness: the cleaned 4.5 row is in the transformed example table
and its Rating is not the sentinel string. -/
theorem C4_witness :
    cleaned45 ∈ transform [row45, rowInvalid] ∧
    cleaned45.Rating ≠ Value.str "Invalid Rating" :=
  ⟨by decide, C4_no_sentinel_rating.1 [row45, rowInvalid] cleaned45 (by decide)
    "Invalid Rating"⟩

/-- C6: the price cleaner strips the currency symbol and thousands
separators, converts to floating point, multiplies by the exchange rate
and rounds to the decimal precision; a default-constructed PriceCleaner
carries rate 16000 and precision 1; the cell $10.00 becomes 160000.0 at
the default rate and 150000.0 at rate 15000. -/
theorem C6_price_cleaner :
    (∀ (s : String) (q : Q) (rate : Q) (places : Nat),
      parseFloat (stripPrice s) = some q →
      priceCellClean rate places (.str s) = .ok (.num (roundTo (q * rate) places))) ∧
    (PriceCleaner.init none none).usd_to_idr_rate = 16000 ∧
    (PriceCleaner.init none none).decimal_places = 1 ∧
    priceCellClean 16000 1 (.str "$10.00") = .ok (.num 160000) ∧
    priceCellClean 15000 1 (.str "$10.00") = .ok (.num 150000) := by
  refine ⟨?_, rfl, rfl, rfl, rfl⟩
  intro s q rate places h
  simp only [priceCellClean, priceStripCell, astypeFloat, h]

/-- C6, witness: $10.00 strips to 10.00 which parses as 10, and the
cleaned cell is the rounded product with the rate. -/
theorem C6_witness :
    parseFloat (stripPrice "$10.00") = some 10 ∧
    priceCellClean 16000 1 (.str "$10.00") = .ok (.num (roundTo (10 * 16000) 1)) :=
  ⟨by decide, C6_price_cleaner.1 "$10.00" 10 16000 1 (by decide)⟩

/-! ## The timestamp column and the failure boundary (C9) -/

/-- Timestamp-cell replacement on every row, the probe for showing the
failure boundary never depends on timestamp values. -/
def mapTs (f : Value → Value) (df : List Row) : List Row :=
  df.map (fun r => { r with Timestamp := f r.Timestamp })

theorem map_congr_rows {f g : Row → Row} :
    ∀ l : List Row, (∀ r, f r = g r) → l.map f = l.map g := by
  intro l h
  induction l with
  | nil => rfl
  | cons x xs ih => simp [h x, ih]

theorem filter_map_comm {m : Row → Row} {p : Row → Bool}
    (h : ∀ r, p (m r) = p r) :
    ∀ l : List Row, (l.map m).filter p = (l.filter p).map m := by
  intro l
  induction l with
  | nil => rfl
  | cons x xs ih =>
    simp only [List.map_cons, List.filter_cons, h x]
    cases hp : p x <;> simp [hp, ih]

theorem traverseE_map_comm {g : Row → Except String Row} {m : Row → Row}
    (h : ∀ r, g (m r) = (g r).map m) :
    ∀ l : List Row, traverseE g (l.map m) = (traverseE g l).map (List.map m) := by
  intro l
  induction l with
  | nil => rfl
  | cons x xs ih =>
    cases hg : g x with
    | error e => simp [traverseE, h x, hg, Except.map]
    | ok y =>
      cases ht : traverseE g xs with
      | error e => simp [traverseE, h x, hg, ih, ht, Except.map]
      | ok ys => simp [traverseE, h x, hg, ih, ht, Except.map]

theorem ratingClean_mapTs (f : Value → Value) (df : List Row) :
    ratingClean (mapTs f df) =
      (ratingClean df).map
        (List.map (fun r => { r with Timestamp := f r.Timestamp })) := by
  unfold ratingClean mapTs
  rw [filter_map_comm (m := fun r => { r with Timestamp := f r.Timestamp })
    (p := fun r => decide (r.Rating ≠ Value.str ratingSentinel)) (fun r => rfl)]
  exact traverseE_map_comm
    (fun r => by
      cases hc : astypeFloat (ratingExtractCell r.Rating) <;> simp [Except.map, hc]) _

theorem priceClean_mapTs (f : Value → Value) (rate : Q) (places : Nat)
    (df : List Row) :
    priceClean rate places (mapTs f df) =
      (priceClean rate places df).map
        (List.map (fun r => { r with Timestamp := f r.Timestamp })) := by
  unfold priceClean mapTs
  exact traverseE_map_comm
    (fun r => by
      cases hc : priceCellClean rate places r.Price <;> simp [Except.map, hc]) _

theorem colorsClean_mapTs (f : Value → Value) (df : List Row) :
    colorsClean (mapTs f df) =
      (colorsClean df).map
        (List.map (fun r => { r with Timestamp := f r.Timestamp })) := by
  unfold colorsClean mapTs
  exact traverseE_map_comm
    (fun r => by
      cases hc : colorsCellClean r.Colors <;> simp [Except.map, hc]) _

theorem attributeClean_mapTs (f : Value → Value) (l : List Row) :
    attributeClean (mapTs f l) = mapTs f (attributeClean l) := by
  unfold attributeClean mapTs
  rw [List.map_map, List.map_map]
  exact map_congr_rows _ (fun r => rfl)

theorem transformE_err1 {df : List Row} {e : String}
    (h : ratingClean df = .error e) : transformE df = .error e := by
  simp [transformE, h]

theorem transformE_err2 {df d1 : List Row} {e : String}
    (h1 : ratingClean df = .ok d1)
    (h2 : priceClean TRANSFORMATION_CONFIG_rate TRANSFORMATION_CONFIG_places d1 =
      .error e) : transformE df = .error e := by
  simp [transformE, h1, h2]

theorem transformE_err3 {df d1 d2 : List Row} {e : String}
    (h1 : ratingClean df = .ok d1)
    (h2 : priceClean TRANSFORMATION_CONFIG_rate TRANSFORMATION_CONFIG_places d1 = .ok d2)
    (h3 : colorsClean d2 = .error e) : transformE df = .error e := by
  simp [transformE, h1, h2, h3]

theorem transformE_eq_ok {df d1 d2 d3 : List Row}
    (h1 : ratingClean df = .ok d1)
    (h2 : priceClean TRANSFORMATION_CONFIG_rate TRANSFORMATION_CONFIG_places d1 = .ok d2)
    (h3 : colorsClean d2 = .ok d3) :
    transformE df = .ok (timestampClean (attributeClean d3)) := by
  simp [transformE, h1, h2, h3]

/-- C9: a parsable timestamp text is reformatted as the ISO-8601 string
with a literal T separator and microsecond precision; an unparsable one
becomes the null marker in its row instead of raising; and timestamp
values never affect whether transform succeeds or how many rows it
returns — so no timestamp value ever turns the output into the empty
table. The example text reformats with the T separator. -/
theorem C9_timestamp_cleaner :
    (∀ s t, parseTs s = some t →
      tsCell (.str s) = .str (datePart t ++ "T" ++ timePart t)) ∧
    (∀ s, parseTs s = none → tsCell (.str s) = .null) ∧
    (∀ (df : List Row) (f : Value → Value),
      (transform (mapTs f df)).length = (transform df).length) ∧
    tsCell (.str "2025-05-10 10:00:00") = .str "2025-05-10T10:00:00.000000" := by
  refine ⟨?_, ?_, ?_, ?_⟩
  · intro s t h
    simp [tsCell, h, formatIso]
  · intro s h
    simp [tsCell, h]
  · intro df f
    cases h1 : ratingClean df with
    | error e =>
      have h1' : ratingClean (mapTs f df) = .error e := by
        rw [ratingClean_mapTs, h1]; rfl
      have e1 := transformE_err1 h1
      have e2 := transformE_err1 h1'
      unfold transform
      rw [e1, e2]
    | ok d1 =>
      have h1' : ratingClean (mapTs f df) = .ok (mapTs f d1) := by
        rw [ratingClean_mapTs, h1]; rfl
      cases h2 : priceClean TRANSFORMATION_CONFIG_rate TRANSFORMATION_CONFIG_places d1 with
      | error e =>
        have h2' : priceClean TRANSFORMATION_CONFIG_rate TRANSFORMATION_CONFIG_places
            (mapTs f d1) = .error e := by
          rw [priceClean_mapTs, h2]; rfl
        unfold transform
        rw [transformE_err2 h1 h2, transformE_err2 h1' h2']
      | ok d2 =>
        have h2' : priceClean TRANSFORMATION_CONFIG_rate TRANSFORMATION_CONFIG_places
            (mapTs f d1) = .ok (mapTs f d2) := by
          rw [priceClean_mapTs, h2]; rfl
        cases h3 : colorsClean d2 with
        | error e =>
          have h3' : colorsClean (mapTs f d2) = .error e := by
            rw [colorsClean_mapTs, h3]; rfl
          unfold transform
          rw [transformE_err3 h1 h2 h3, transformE_err3 h1' h2' h3']
        | ok d3 =>
          have h3' : colorsClean (mapTs f d2) = .ok (mapTs f d3) := by
            rw [colorsClean_mapTs, h3]; rfl
          unfold transform
          rw [transformE_eq_ok h1 h2 h3, transformE_eq_ok h1' h2' h3']
          simp [timestampClean, attributeClean, mapTs]
  · decide

/-- C9, witness: the example timestamp parses and is reformatted with a
literal T separator and six-digit microseconds. -/
theorem C9_witness :
    parseTs "2025-05-10 10:00:00" = some ⟨2025, 5, 10, 10, 0, 0⟩ ∧
    tsCell (.str "2025-05-10 10:00:00") =
      .str (datePart ⟨2025, 5, 10, 10, 0, 0⟩ ++ "T" ++ timePart ⟨2025, 5, 10, 10, 0, 0⟩) :=
  ⟨by decide, C9_timestamp_cleaner.1 _ _ (by decide)⟩

/-! ## Theorems about FashionDataExtractor.extract (C5) -/

theorem extractPages_halt {fetch : Nat → Option (List Card)} {K : Nat}
    (hK : fetch K = none) :
    ∀ (rem start : Nat), start ≤ K → K < start + rem →
      (∀ p, start ≤ p → p < K → (fetch p).isSome = true) →
      extractPages fetch start rem = pagesConcat fetch start (K - start) ∧
      fetchedPages fetch start rem = List.range' start (K - start + 1) := by
  intro rem
  induction rem with
  | zero => intro start hs1 hs2 _; omega
  | succ r ih =>
    intro start hs1 hs2 hb
    by_cases hs : start = K
    · subst hs
      rw [Nat.sub_self]
      constructor
      · simp [extractPages, hK, pagesConcat]
      · simp [fetchedPages, hK, List.range'_succ, List.range']
    · have hlt : start < K := Nat.lt_of_le_of_ne hs1 hs
      have hsome := hb start (Nat.le_refl start) hlt
      obtain ⟨cards, hc⟩ := Option.isSome_iff_exists.mp hsome
      have hih := ih (start + 1) (by omega) (by omega)
        (fun p hp1 hp2 => hb p (by omega) hp2)
      have hKs : K - start = (K - (start + 1)) + 1 := by omega
      constructor
      · rw [hKs]
        simp only [extractPages, hc, pagesConcat, Option.getD_some]
        rw [hih.1]
      · have hKs2 : K - start + 1 = (K - (start + 1) + 1) + 1 := by omega
        rw [hKs2, List.range'_succ]
        simp only [fetchedPages, hc]
        rw [hih.2]

/-- C5: when the fetch of page K (1 ≤ K ≤ N, the first failing page)
fails, extraction halts at page K — the result is exactly the
concatenated records of pages 1..K-1, the fetcher is invoked on pages
1..K and never on any later page, and the failed page is not skipped. -/
theorem C5_fetch_failure_halts (fetch : Nat → Option (List Card)) (N K : Nat)
    (h1 : 1 ≤ K) (h2 : K ≤ N) (h3 : fetch K = none)
    (h4 : ∀ p, p < K → 1 ≤ p → (fetch p).isSome = true) :
    extract fetch N = pagesConcat fetch 1 (K - 1) ∧
    fetchedPages fetch 1 N = List.range' 1 K := by
  unfold extract
  have h := extractPages_halt h3 N 1 h1 (by omega) (fun p hp hlt => h4 p hlt hp)
  refine ⟨h.1, ?_⟩
  have hk : K - 1 + 1 = K := by omega
  rw [← hk]
  exact h.2

/-- The witness fetcher: pages other than 3 produce one parsed card, the
fetch of page 3 fails. -/
def wfetch : Nat → Option (List Card) :=
  fun p => if p = 3 then none else some [⟨some row45⟩]

/-- C5, witness: with 5 configured pages and a fetch failure on page 3,
extraction returns exactly the records of pages 1 and 2, and pages 1, 2, 3
are the only ones fetched. -/
theorem C5_witness :
    (wfetch 3 = none ∧ ∀ p, p < 3 → 1 ≤ p → (wfetch p).isSome = true) ∧
    (extract wfetch 5 = pagesConcat wfetch 1 2 ∧
      fetchedPages wfetch 1 5 = List.range' 1 3) ∧
    pagesConcat wfetch 1 2 = [row45, row45] :=
  ⟨⟨by decide, by decide⟩,
   C5_fetch_failure_halts wfetch 5 3 (by decide) (by decide) (by decide) (by decide),
   by decide⟩

/-! ## Theorems about the loaders -/

/-- C7: load_to_all invokes all three loaders on the table and returns
the mapping with exactly the three destination keys, each carrying that
destination's own boolean outcome — a failure is reported as false for its
key, the loaders never raise, and no destination's outcome depends on
another destination's outcome; on effects succeed/fail/succeed the result
is exactly true/false/true. -/
theorem C7_load_to_all_results :
    (∀ (data : Frame) (fx : DestFx),
      (MultiDestinationDataLoader.load_to_all data fx).1 =
        { csv := okB (fx.csvFx data)
          postgresql := okB (fx.pgFx (lowerFrameCols data))
          google_sheets :=
            match fx.sheetsClearFx with
            | .error _ => false
            | .ok _ => okB (fx.sheetsUpdateFx ((data.cols.map Value.str) :: data.rows)) }) ∧
    (∀ (data : Frame) (updateFx : List (List Value) → Except String Unit),
      (MultiDestinationDataLoader.load_to_all data
        ⟨fun _ => .ok (), fun _ => .error "connection refused", .ok (), updateFx⟩).1 =
        { csv := true, postgresql := false,
          google_sheets := okB (updateFx ((data.cols.map Value.str) :: data.rows)) }) := by
  constructor
  · intro data fx
    unfold MultiDestinationDataLoader.load_to_all CsvDataLoader.load
      PostgreSQLDataLoader.load GoogleSheetsDataLoader.load Frame.copy okB
    cases fx.csvFx data <;> cases hpg : fx.pgFx (lowerFrameCols ⟨data.cols, data.rows⟩) <;>
      cases hcl : fx.sheetsClearFx <;> simp [hpg, hcl] <;>
      cases hup : fx.sheetsUpdateFx ((data.cols.map Value.str) :: data.rows) <;>
      simp [hup]
  · intro data updateFx
    unfold MultiDestinationDataLoader.load_to_all CsvDataLoader.load
      PostgreSQLDataLoader.load GoogleSheetsDataLoader.load Frame.copy okB
    cases hup : updateFx ((data.cols.map Value.str) :: data.rows) <;> simp [hup]

/-- C8: no loader call changes the caller's table — the lower-casing of
column names in the relational loader happens on a copy, and after each
individual load and after load_to_all the caller's frame (columns
included) is exactly the input. -/
theorem C8_loaders_do_not_mutate :
    (∀ (data : Frame) (fx : WriteFx), (CsvDataLoader.load data fx).2 = data) ∧
    (∀ (data : Frame) (fx : WriteFx), (PostgreSQLDataLoader.load data fx).2 = data) ∧
    (∀ (data : Frame) (clearFx : Except String Unit)
      (updateFx : List (List Value) → Except String Unit),
      (GoogleSheetsDataLoader.load data clearFx updateFx).2 = data) ∧
    (∀ (data : Frame) (fx : WriteFx),
      (PostgreSQLDataLoader.load data fx).2.cols = data.cols) ∧
    (∀ (data : Frame) (fx : DestFx),
      (MultiDestinationDataLoader.load_to_all data fx).2 = data) := by
  refine ⟨?_, ?_, ?_, ?_, ?_⟩
  · intro data fx
    unfold CsvDataLoader.load
    cases h : fx data <;> simp [h]
  · intro data fx
    unfold PostgreSQLDataLoader.load
    cases h : fx (lowerFrameCols data.copy) <;> simp [h]
  · intro data clearFx updateFx
    unfold GoogleSheetsDataLoader.load
    cases h : clearFx with
    | error e => simp [h]
    | ok u =>
      cases h2 : updateFx ((data.cols.map Value.str) :: data.rows) <;> simp [h, h2]
  · intro data fx
    unfold PostgreSQLDataLoader.load
    cases h : fx (lowerFrameCols data.copy) <;> simp [h]
  · intro data fx
    unfold MultiDestinationDataLoader.load_to_all CsvDataLoader.load
      PostgreSQLDataLoader.load GoogleSheetsDataLoader.load
    cases h1 : fx.csvFx data <;>
      cases h2 : fx.pgFx (lowerFrameCols data.copy) <;>
      cases h3 : fx.sheetsClearFx <;>
      simp [h1, h2, h3] <;>
      cases h4 : fx.sheetsUpdateFx ((data.cols.map Value.str) :: data.rows) <;>
      simp [h4]

end ETL
